import Mathlib

/-!
Verification of the eafoods_preorder order-reservation core.

The definitions below are a shallow embedding of the Django views in
`preorder/views.py` together with the data model of `preorder/models.py`:

* `Product`, `StockBalance`, `PreOrder`, the delivery-slot name set
  (`SLOT_CHOICES`) — the data model;
* `resolveProduct` — the product-name resolution of
  `PreOrderCreateView.create` (iexact first, then icontains suggestions);
* `scheduleDeliveryDate` — the cut-off logic (18:00 local);
* `placeOrder` — `PreOrderCreateView.create`;
* `cancelOrder` — `CancelOrderView.post`;
* `adjustStock` — `StockUpdateView.perform_update` (window check before
  the write; the serializer's PositiveIntegerField makes the new quantity
  a `Nat`);
* `listOrdersBySlot` — `OrderListBySlotView.list`;
* `topProducts` — `TopProductsReportView.get`.

Times of day are seconds since local midnight (`Nat`); dates are abstract
day indices (`Nat`); `datetime.time(18,0)` is `64800`, etc.  Stored stock
quantities are modelled as `Int` so that the non-negativity invariant is a
real statement about the operations, not a consequence of the type.
-/

/-- A catalog product: surrogate id and (unique) display name. -/
structure Product where
  id : Nat
  name : String
deriving DecidableEq, Repr

/-- A customer pre-order row (`PreOrder` model): user, product, slot,
quantity, computed delivery date, address and the cancellation flag. -/
structure PreOrder where
  id : Nat
  userId : Nat
  productId : Nat
  slotName : String
  quantity : Int
  deliveryDate : Nat
  address : String
  isCancelled : Bool
deriving DecidableEq, Repr

/-- A local datetime split as Python's `now.date()` (day index) and
`now.time()` (seconds since midnight). -/
structure LocalDT where
  date : Nat
  tsec : Nat
deriving DecidableEq, Repr

/-- The whole persistent state touched by the core: product table, the
one-to-one `StockBalance` rows (product id, quantity), the order table,
and the next order surrogate id. -/
structure DBState where
  products : List Product
  stock : List (Nat × Int)
  orders : List PreOrder
  nextOrderId : Nat
deriving DecidableEq, Repr

/-- The fixed slot-name enumeration `DeliverySlot.SLOT_CHOICES`. -/
def SLOT_CHOICES : List String := ["MORNING", "AFTERNOON", "EVENING"]

/-- Python's `str.lower()` (character-wise lowercasing). -/
def pyLower (s : String) : String :=
  ⟨s.data.map Char.toLower⟩

/-- Python's `str.upper()` (character-wise uppercasing). -/
def pyUpper (s : String) : String :=
  ⟨s.data.map Char.toUpper⟩

/-- Python's `str.strip()`: drop leading and trailing whitespace. -/
def pyStrip (s : String) : String :=
  ⟨((s.data.dropWhile Char.isWhitespace).reverse.dropWhile Char.isWhitespace).reverse⟩

/-- Case-insensitive string equality — Django's `name__iexact` lookup. -/
def iexact (a b : String) : Bool :=
  pyLower a == pyLower b

/-- Does `needle` occur as a contiguous run inside `hay` (both lists of
lowered characters)?  Auxiliary for the `icontains` lookup. -/
def charsHaveSub (needle : List Char) : List Char → Bool
  | [] => needle.isEmpty
  | c :: cs => needle.isPrefixOf (c :: cs) || charsHaveSub needle cs

/-- Case-insensitive substring test — Django's `name__icontains` lookup. -/
def icontains (hay needle : String) : Bool :=
  charsHaveSub (pyLower needle).data (pyLower hay).data

/-- Outcome of product resolution inside `PreOrderCreateView.create`. -/
inductive ResolveResult where
  | found (p : Product)
  | ambiguous (candidates : List (Nat × String))
  | notFound
deriving DecidableEq, Repr

/-- `Product.objects.filter(name__iexact=name).first()`, falling back to
`Product.objects.filter(name__icontains=name)` suggestions
(views.py lines 150-164). -/
def resolveProduct (products : List Product) (name : String) : ResolveResult :=
  match products.find? (fun p => iexact p.name name) with
  | some p => .found p
  | none =>
      let suggestions := products.filter (fun p => icontains p.name name)
      if suggestions.isEmpty then .notFound
      else .ambiguous (suggestions.map (fun p => (p.id, p.name)))

/-- `time(18, 0)` in seconds since midnight. -/
def cutoffSec : Nat := 18 * 3600

/-- The cut-off logic of views.py lines 214-218: delivery date is
`now.date() + 1`, plus one more day when `now.time() >= time(18, 0)`. -/
def scheduleDeliveryDate (now : LocalDT) : Nat :=
  let base := now.date + 1
  if cutoffSec ≤ now.tsec then base + 1 else base

/-- First `StockBalance` row for the given product id
(`StockBalance.objects.get(product=...)`). -/
def lookupStock (st : DBState) (pid : Nat) : Option Int :=
  (st.stock.find? (fun pq => pq.1 == pid)).map (fun pq => pq.2)

/-- Write the quantity of the product's stock row (`stock.save()`). -/
def setStock (st : DBState) (pid : Nat) (q : Int) : DBState :=
  { st with stock := st.stock.map (fun pq => if pq.1 == pid then (pq.1, q) else pq) }

/-- The request body of a placement, as `PreOrderCreateView.create` reads
it: `product_name`, `quantity` (`none` models a value `int(...)` rejects,
`some q` the parsed integer; an absent field parses as `0`), `slot` and
`delivery_address`. -/
structure PlaceRequest where
  productName : String
  quantity : Option Int
  slot : String
  address : String
deriving DecidableEq, Repr

/-- The possible responses of `PreOrderCreateView.create`, one constructor
per `return Response(...)` branch. -/
inductive PlaceResult where
  | created (o : PreOrder)
  | missingProductName
  | productNotFound (name : String)
  | ambiguous (candidates : List (Nat × String))
  | invalidQuantity
  | invalidSlot (valid : List String)
  | emptyAddress
  | addressNeedsLetter
  | addressBadChars
  | stockNotFound
  | insufficientStock (productName : String) (available : Int)
deriving DecidableEq, Repr

/-- Is the character allowed in a delivery address
(views.py line 196: alphanumeric, whitespace, or one of `,.-`)? -/
def addressCharOk (c : Char) : Bool :=
  c.isAlphanum || c.isWhitespace || c == ',' || c == '.' || c == '-'

/-- `PreOrderCreateView.create` (views.py lines 139-237): validation in
source order — product name, product resolution, quantity, slot, address,
stock check — then the cut-off computation, order creation and stock
decrement. -/
def placeOrder (st : DBState) (userId : Nat) (req : PlaceRequest)
    (now : LocalDT) : PlaceResult × DBState :=
  let pname := pyStrip req.productName
  if pname.data.isEmpty then (.missingProductName, st)
  else
    match resolveProduct st.products pname with
    | .notFound => (.productNotFound pname, st)
    | .ambiguous cs => (.ambiguous cs, st)
    | .found p =>
      match req.quantity with
      | none => (.invalidQuantity, st)
      | some qty =>
        if qty ≤ 0 then (.invalidQuantity, st)
        else
          let slotN := pyUpper (pyStrip req.slot)
          if SLOT_CHOICES.contains slotN then
            let addr := pyStrip req.address
            if addr.data.isEmpty then (.emptyAddress, st)
            else if !addr.data.any Char.isAlpha then (.addressNeedsLetter, st)
            else if !addr.data.all addressCharOk then (.addressBadChars, st)
            else
              match lookupStock st p.id with
              | none => (.stockNotFound, st)
              | some avail =>
                if avail < qty then (.insufficientStock p.name avail, st)
                else
                  let o : PreOrder :=
                    ⟨st.nextOrderId, userId, p.id, slotN, qty,
                     scheduleDeliveryDate now, addr, false⟩
                  let st1 := { st with
                    orders := st.orders ++ [o],
                    nextOrderId := st.nextOrderId + 1 }
                  (.created o, setStock st1 p.id (avail - qty))
          else (.invalidSlot SLOT_CHOICES, st)

/-- The possible responses of `CancelOrderView.post`.  `stockRowMissing`
models the uncaught `StockBalance.DoesNotExist` of line 270, raised after
the cancellation flag has already been saved. -/
inductive CancelResult where
  | ok
  | notFound
  | alreadyCancelled
  | stockRowMissing
deriving DecidableEq, Repr

/-- `preorder.is_cancelled = True; preorder.save()`: mark the row with
this pk cancelled. -/
def flipCancelled (st : DBState) (pk : Nat) : DBState :=
  { st with
    orders := st.orders.map
      (fun r => if r.id == pk then { r with isCancelled := true } else r) }

/-- `CancelOrderView.post` (views.py lines 252-274): look the order up by
pk *and* owner, guard on the cancellation flag, then flip the flag and
restore the product's stock. -/
def cancelOrder (st : DBState) (userId : Nat) (pk : Nat) :
    CancelResult × DBState :=
  match st.orders.find? (fun o => o.id == pk && o.userId == userId) with
  | none => (.notFound, st)
  | some o =>
    if o.isCancelled then (.alreadyCancelled, st)
    else
      let st1 := flipCancelled st pk
      match lookupStock st1 o.productId with
      | none => (.stockRowMissing, st1)
      | some q => (.ok, setStock st1 o.productId (q + o.quantity))

/-- The possible responses of `StockUpdateView`: 404 when the
`StockBalance` row does not exist, the window `ValidationError`, or a
successful save. -/
inductive AdjustResult where
  | ok
  | notFound
  | outOfWindow
deriving DecidableEq, Repr

/-- The window test of `StockUpdateView.perform_update` (views.py line
114): `time(8,0) <= now.time() <= time(12,0)` or
`time(18,0) <= now.time() <= time(19,0)`, both ends inclusive. -/
def stockWindowOpen (t : Nat) : Bool :=
  (decide (8 * 3600 ≤ t) && decide (t ≤ 12 * 3600)) ||
    (decide (18 * 3600 ≤ t) && decide (t ≤ 19 * 3600))

/-- `StockUpdateView` (views.py lines 98-119): fetch the stock row, check
the replenishment window, then save the new quantity.  The serializer's
`PositiveIntegerField` admits exactly the natural numbers, hence
`newQty : Nat`. -/
def adjustStock (st : DBState) (pid : Nat) (newQty : Nat)
    (now : LocalDT) : AdjustResult × DBState :=
  match lookupStock st pid with
  | none => (.notFound, st)
  | some _ =>
    if stockWindowOpen now.tsec then (.ok, setStock st pid (newQty : Int))
    else (.outOfWindow, st)

/-- The possible responses of `OrderListBySlotView.list`. -/
inductive SlotListResult where
  | missingSlotParam
  | invalidSlot (valid : List String)
  | ok (rows : List PreOrder)
deriving DecidableEq, Repr

/-- `OrderListBySlotView.list` (views.py lines 301-326): require the
`slot` query parameter (absent or empty is falsy), normalise it with
`.strip().upper()`, resolve it against the slot table, then return the
non-cancelled orders of that slot. -/
def listOrdersBySlot (st : DBState) (slotParam : Option String) :
    SlotListResult :=
  match slotParam with
  | none => .missingSlotParam
  | some s =>
    if s.data.isEmpty then .missingSlotParam
    else
      let n := pyUpper (pyStrip s)
      if SLOT_CHOICES.contains n then
        .ok (st.orders.filter (fun o => o.slotName == n && !o.isCancelled))
      else .invalidSlot SLOT_CHOICES

/-- One row of the top-products report: the fields listed in the
`.values(...)` call of `TopProductsReportView.get` that this embedding
models (`created_at` is not modelled). -/
structure ReportRow where
  orderId : Nat
  userId : Nat
  productName : String
  quantity : Int
  deliveryDate : Nat
deriving DecidableEq, Repr

/-- Display name of a product id (the `product__name` join column). -/
def productNameOf (st : DBState) (pid : Nat) : String :=
  match st.products.find? (fun p => p.id == pid) with
  | some p => p.name
  | none => ""

/-- Insert one row into a list sorted descending by `quantity` —
the `order_by("-quantity")` of the report. -/
def insertByQtyDesc (r : ReportRow) : List ReportRow → List ReportRow
  | [] => [r]
  | x :: xs =>
    if x.quantity < r.quantity then r :: x :: xs
    else x :: insertByQtyDesc r xs

/-- Sort report rows descending by `quantity`. -/
def sortByQtyDesc (l : List ReportRow) : List ReportRow :=
  l.foldr insertByQtyDesc []

/-- `TopProductsReportView.get` (views.py lines 354-387) after date
parsing.  The queryset is only built inside the `start_date > end_date`
swap branch; on the ordinary `start_date <= end_date` path the later
`Response(qs, ...)` hits an unbound local and the request crashes, which
this embedding renders as `none`.  The rows the swap branch does return
are one per non-cancelled in-range order, sorted by `quantity`
descending — they are not aggregated per product. -/
def topProducts (st : DBState) (startD endD : Nat) :
    Option (List ReportRow) :=
  if endD < startD then
    let s := endD
    let e := startD
    some (sortByQtyDesc ((st.orders.filter
      (fun o => decide (s ≤ o.deliveryDate) && decide (o.deliveryDate ≤ e)
        && !o.isCancelled)).map
      (fun o => ⟨o.id, o.userId, productNameOf st o.productId,
        o.quantity, o.deliveryDate⟩)))
  else none

/-- Add an order's quantity into per-product running totals. -/
def addToTotals (name : String) (q : Int) :
    List (String × Int) → List (String × Int)
  | [] => [(name, q)]
  | (n, t) :: rest =>
    if n == name then (n, t + q) :: rest
    else (n, t) :: addToTotals name q rest

/-- Insert into a list sorted descending by total quantity. -/
def insertTotalDesc (x : String × Int) :
    List (String × Int) → List (String × Int)
  | [] => [x]
  | y :: ys => if y.2 < x.2 then x :: y :: ys else y :: insertTotalDesc x ys

/-- Modelled from the spec: `TopProducts(startDate, endDate)` as §6 of the
spec describes it — "(product, totalQuantity) aggregated over
non-cancelled orders in range, descending by quantity".  Stated only to
compare the source's report against the spec's words. -/
def specTopProducts (st : DBState) (startD endD : Nat) :
    List (String × Int) :=
  let inRange := st.orders.filter
    (fun o => decide (startD ≤ o.deliveryDate) && decide (o.deliveryDate ≤ endD)
      && !o.isCancelled)
  let totals := inRange.foldl
    (fun acc o => addToTotals (productNameOf st o.productId) o.quantity acc) []
  totals.foldr insertTotalDesc []

/-- One state-mutating request of the core: a placement, a cancellation,
or a replenishment. -/
inductive Op where
  | place (userId : Nat) (req : PlaceRequest) (now : LocalDT)
  | cancel (userId : Nat) (pk : Nat)
  | adjust (pid : Nat) (newQty : Nat) (now : LocalDT)

/-- The state after serving one request (response discarded). -/
def applyOp (st : DBState) : Op → DBState
  | .place u r n => (placeOrder st u r n).2
  | .cancel u pk => (cancelOrder st u pk).2
  | .adjust pid q n => (adjustStock st pid q n).2

/-- The state after serving a sequence of requests in order. -/
def runOps (st : DBState) : List Op → DBState
  | [] => st
  | op :: rest => runOps (applyOp st op) rest

/-- Every `StockBalance` quantity is non-negative. -/
def StockNonneg (st : DBState) : Prop :=
  ∀ pq ∈ st.stock, 0 ≤ pq.2

/-- Every stored order has a positive quantity. -/
def OrdersPos (st : DBState) : Prop :=
  ∀ o ∈ st.orders, 0 < o.quantity

/-- Every stored order's product still has a `StockBalance` row (the
one-to-one relationship of the data model). -/
def OrdersHaveStock (st : DBState) : Prop :=
  ∀ o ∈ st.orders, (lookupStock st o.productId).isSome

/-- The state invariant the operations maintain. -/
def CoreInv (st : DBState) : Prop :=
  StockNonneg st ∧ OrdersPos st ∧ OrdersHaveStock st

/-- One in-flight placement request restricted to its stock section
(views.py lines 202-232): its requested quantity, the stock value read by
`StockBalance.objects.get` (`none` before the read), and its final
response (`none` while running; `some true` = order created,
`some false` = `InsufficientStock`). -/
structure ThreadSt where
  qty : Int
  readQ : Option Int
  result : Option Bool
deriving DecidableEq, Repr

/-- Two placement requests racing on one product's stock row. -/
structure RaceState where
  stockQ : Int
  thread1 : ThreadSt
  thread2 : ThreadSt
deriving DecidableEq, Repr

/-- One micro-step of a placement's stock section, exactly as the source
orders it: first `stock = StockBalance.objects.get(...)` (a plain read),
then the `stock.quantity < qty` check followed — on success — by
`stock.quantity -= qty; stock.save()`, which writes back the *read* value
minus `qty`. -/
def threadStep (t : ThreadSt) (stockQ : Int) : ThreadSt × Int :=
  match t.readQ, t.result with
  | none, _ => ({ t with readQ := some stockQ }, stockQ)
  | some q, none =>
    if q < t.qty then ({ t with result := some false }, stockQ)
    else ({ t with result := some true }, q - t.qty)
  | some _, some _ => (t, stockQ)

/-- Run the scheduled thread for one micro-step (`true` picks thread 2). -/
def raceStep (s : RaceState) (pickSecond : Bool) : RaceState :=
  if pickSecond then
    let tq := threadStep s.thread2 s.stockQ
    { s with thread2 := tq.1, stockQ := tq.2 }
  else
    let tq := threadStep s.thread1 s.stockQ
    { s with thread1 := tq.1, stockQ := tq.2 }

/-- Run a whole interleaving of the two requests. -/
def runRace (s : RaceState) : List Bool → RaceState
  | [] => s
  | c :: cs => runRace (raceStep s c) cs

/-- Sample catalog used by concrete witnesses. -/
def exProducts : List Product := [⟨1, "Apple"⟩, ⟨2, "Banana"⟩]

/-- Sample state: Apple has stock 10, Banana stock 5, no orders yet. -/
def exState : DBState := ⟨exProducts, [(1, 10), (2, 5)], [], 1⟩

/-- Sample order row used by concrete witnesses. -/
def exOrder : PreOrder := ⟨1, 7, 1, "MORNING", 2, 101, "12 Street", false⟩

def exStateWithOrder : DBState := ⟨exProducts, [(1, 8), (2, 5)], [exOrder], 2⟩

def otherOwnerState : DBState :=
  ⟨exProducts, [(1, 10), (2, 5)], [⟨1, 8, 1, "MORNING", 2, 101, "12 Street", false⟩], 2⟩

/-- Report-scenario orders: two non-cancelled Apple orders with
delivery date 100 and quantities 2 and 3. -/
def repOrder1 : PreOrder := ⟨1, 7, 1, "MORNING", 2, 100, "12 Street", false⟩

def repOrder2 : PreOrder := ⟨2, 8, 1, "EVENING", 3, 100, "34 Street", false⟩

def repState : DBState := ⟨exProducts, [(1, 5), (2, 5)], [repOrder1, repOrder2], 3⟩

/-! ### Helper lemmas -/

/-- `find?` commutes with a `map` whose function preserves the predicate. -/
theorem find?_map_eq {α : Type} (f : α → α) (p : α → Bool)
    (h : ∀ a, p (f a) = p a) :
    ∀ l : List α, (l.map f).find? p = (l.find? p).map f := by
  intro l
  induction l with
  | nil => rfl
  | cons a l ih =>
    by_cases hp : p a = true
    · rw [List.map_cons, List.find?_cons_of_pos _ ((h a).trans hp),
        List.find?_cons_of_pos _ hp, Option.map_some']
    · rw [List.map_cons, List.find?_cons_of_neg, List.find?_cons_of_neg _ ?hn, ih]
      case hn => simpa using hp
      rw [h a]; simpa using hp

theorem setStock_products (st : DBState) (pid : Nat) (q : Int) :
    (setStock st pid q).products = st.products := rfl

theorem setStock_orders (st : DBState) (pid : Nat) (q : Int) :
    (setStock st pid q).orders = st.orders := rfl

/-- Reading any stock row after a write: the value at the written id
becomes the new value, other rows are untouched. -/
theorem lookupStock_setStock (st : DBState) (pid : Nat) (q : Int) (pid' : Nat) :
    lookupStock (setStock st pid q) pid' =
      (st.stock.find? (fun pq => pq.1 == pid')).map
        (fun pq => if pq.1 == pid then q else pq.2) := by
  unfold lookupStock setStock
  rw [find?_map_eq (fun pq => if pq.1 == pid then (pq.1, q) else pq)
    (fun pq => pq.1 == pid')]
  · cases st.stock.find? (fun pq => pq.1 == pid') with
    | none => rfl
    | some a =>
      by_cases hc : a.1 = pid
      · simp [hc]
      · simp [hc]
  · intro a
    by_cases hc : a.1 = pid
    · simp [hc]
    · simp [hc]

theorem lookupStock_setStock_isSome (st : DBState) (pid : Nat) (q : Int)
    (pid' : Nat) :
    (lookupStock (setStock st pid q) pid').isSome
      = (lookupStock st pid').isSome := by
  rw [lookupStock_setStock]
  unfold lookupStock
  cases st.stock.find? (fun pq => pq.1 == pid') <;> rfl

theorem lookupStock_setStock_self (st : DBState) (pid : Nat) (q : Int)
    (h : (lookupStock st pid).isSome) :
    lookupStock (setStock st pid q) pid = some q := by
  rw [lookupStock_setStock]
  unfold lookupStock at h
  cases hf : st.stock.find? (fun pq => pq.1 == pid) with
  | none => rw [hf] at h; simp at h
  | some a =>
    have := List.find?_some hf
    simp only [Option.map_some']
    rw [if_pos this]

/-- Any value read through `lookupStock` of a `StockNonneg` state is
non-negative. -/
theorem lookupStock_nonneg {st : DBState} {pid : Nat} {v : Int}
    (h : StockNonneg st) (hl : lookupStock st pid = some v) : 0 ≤ v := by
  unfold lookupStock at hl
  cases hf : st.stock.find? (fun pq => pq.1 == pid) with
  | none => rw [hf] at hl; simp at hl
  | some a =>
    rw [hf] at hl
    simp only [Option.map_some', Option.some.injEq] at hl
    exact hl ▸ h a (List.mem_of_find?_eq_some hf)

/-- Writing a non-negative value keeps all stock values non-negative. -/
theorem stockNonneg_setStock {st : DBState} {pid : Nat} {q : Int}
    (h : StockNonneg st) (hq : 0 ≤ q) : StockNonneg (setStock st pid q) := by
  intro pq hpq
  unfold setStock at hpq
  simp only [List.mem_map] at hpq
  obtain ⟨a, ha, rfl⟩ := hpq
  by_cases hc : a.1 == pid
  · simpa [hc] using hq
  · simpa [hc] using h a ha

/-- Case analysis on `placeOrder`. -/
theorem placeOrder_spec (st : DBState) (u : Nat) (req : PlaceRequest)
    (now : LocalDT) :
    ((placeOrder st u req now).2 = st ∧
      ∀ o, (placeOrder st u req now).1 ≠ .created o) ∨
    (∃ p qty avail,
      resolveProduct st.products (pyStrip req.productName) = .found p ∧
      req.quantity = some qty ∧ 0 < qty ∧
      lookupStock st p.id = some avail ∧ qty ≤ avail ∧
      placeOrder st u req now = (.created
        ⟨st.nextOrderId, u, p.id, pyUpper (pyStrip req.slot), qty,
          scheduleDeliveryDate now, pyStrip req.address, false⟩,
        setStock
          { st with
            orders := st.orders ++
              [⟨st.nextOrderId, u, p.id, pyUpper (pyStrip req.slot), qty,
                scheduleDeliveryDate now, pyStrip req.address, false⟩],
            nextOrderId := st.nextOrderId + 1 } p.id (avail - qty))) := by
  simp only [placeOrder]
  repeat' split
  all_goals try (left; exact ⟨rfl, by intro o h; simp at h⟩)
  rename_i hname x1 p heq x2 qty hqty hqpos hslot haddr1 haddr2 haddr3 x3 avail hstock hins
  right
  exact ⟨p, qty, avail, heq, hqty, not_le.mp hqpos, hstock, not_lt.mp hins, rfl⟩

theorem lookupStock_flip (st : DBState) (pk pid : Nat) :
    lookupStock (flipCancelled st pk) pid = lookupStock st pid := rfl

/-- Case analysis on `cancelOrder`. -/
theorem cancelOrder_spec (st : DBState) (u pk : Nat) :
    (cancelOrder st u pk = (.notFound, st) ∧
      st.orders.find? (fun o => o.id == pk && o.userId == u) = none) ∨
    (∃ o, st.orders.find? (fun o => o.id == pk && o.userId == u) = some o ∧
      ((o.isCancelled = true ∧ cancelOrder st u pk = (.alreadyCancelled, st)) ∨
       (o.isCancelled = false ∧
         ((lookupStock st o.productId = none ∧
            cancelOrder st u pk = (.stockRowMissing, flipCancelled st pk)) ∨
          (∃ q, lookupStock st o.productId = some q ∧
            cancelOrder st u pk =
              (.ok, setStock (flipCancelled st pk) o.productId
                (q + o.quantity))))))) := by
  cases hf : st.orders.find? (fun o => o.id == pk && o.userId == u) with
  | none => left; exact ⟨by simp [cancelOrder, hf], rfl⟩
  | some o =>
    right
    refine ⟨o, rfl, ?_⟩
    by_cases hc : o.isCancelled
    · left; exact ⟨hc, by simp [cancelOrder, hf, hc]⟩
    · right
      refine ⟨by simpa using hc, ?_⟩
      cases hs : lookupStock st o.productId with
      | none =>
        left
        exact ⟨rfl, by simp [cancelOrder, hf, hc, lookupStock_flip, hs]⟩
      | some q =>
        right
        exact ⟨q, rfl, by simp [cancelOrder, hf, hc, lookupStock_flip, hs]⟩

/-- Case analysis on `adjustStock`. -/
theorem adjustStock_spec (st : DBState) (pid newQty : Nat) (now : LocalDT) :
    (adjustStock st pid newQty now = (.notFound, st) ∧
      lookupStock st pid = none) ∨
    ((lookupStock st pid).isSome = true ∧
      ((stockWindowOpen now.tsec = true ∧
        adjustStock st pid newQty now = (.ok, setStock st pid (newQty : Int))) ∨
       (stockWindowOpen now.tsec = false ∧
        adjustStock st pid newQty now = (.outOfWindow, st)))) := by
  cases hs : lookupStock st pid with
  | none => left; exact ⟨by simp [adjustStock, hs], rfl⟩
  | some q =>
    right
    refine ⟨by simp [hs], ?_⟩
    by_cases hw : stockWindowOpen now.tsec
    · left; exact ⟨hw, by simp [adjustStock, hs, hw]⟩
    · right
      exact ⟨by simpa using hw, by simp [adjustStock, hs, hw]⟩

theorem ordersPos_flip {st : DBState} (pk : Nat) (h : OrdersPos st) :
    OrdersPos (flipCancelled st pk) := by
  intro o ho
  unfold flipCancelled at ho
  simp only [List.mem_map] at ho
  obtain ⟨r, hr, rfl⟩ := ho
  by_cases hc : (r.id == pk) = true
  · rw [if_pos hc]; exact h r hr
  · rw [if_neg hc]; exact h r hr

theorem ordersHaveStock_flip {st : DBState} (pk : Nat)
    (h : OrdersHaveStock st) : OrdersHaveStock (flipCancelled st pk) := by
  intro o ho
  unfold flipCancelled at ho
  simp only [List.mem_map] at ho
  obtain ⟨r, hr, rfl⟩ := ho
  rw [lookupStock_flip]
  by_cases hc : (r.id == pk) = true
  · rw [if_pos hc]; exact h r hr
  · rw [if_neg hc]; exact h r hr

/-- `placeOrder` preserves the state invariant. -/
theorem coreInv_place (st : DBState) (u : Nat) (req : PlaceRequest)
    (now : LocalDT) (h : CoreInv st) : CoreInv ((placeOrder st u req now).2) := by
  obtain ⟨h1, h2, h3⟩ := h
  rcases placeOrder_spec st u req now with ⟨heq, _⟩ |
    ⟨p, qty, avail, _, _, hqpos, hstock, hle, hpair⟩
  · rw [heq]; exact ⟨h1, h2, h3⟩
  · rw [hpair]
    refine ⟨?_, ?_, ?_⟩
    · exact stockNonneg_setStock h1 (sub_nonneg.mpr hle)
    · intro o ho
      rw [setStock_orders] at ho
      simp only [List.mem_append, List.mem_singleton] at ho
      rcases ho with ho | rfl
      · exact h2 o ho
      · exact hqpos
    · intro o ho
      rw [lookupStock_setStock_isSome]
      rw [setStock_orders] at ho
      simp only [List.mem_append, List.mem_singleton] at ho
      rcases ho with ho | rfl
      · exact h3 o ho
      · exact (by simp [hstock] : (lookupStock st p.id).isSome = true)

/-- `cancelOrder` preserves the state invariant. -/
theorem coreInv_cancel (st : DBState) (u pk : Nat) (h : CoreInv st) :
    CoreInv ((cancelOrder st u pk).2) := by
  obtain ⟨h1, h2, h3⟩ := h
  rcases cancelOrder_spec st u pk with ⟨heq, _⟩ | ⟨o, hf, hrest⟩
  · rw [heq]; exact ⟨h1, h2, h3⟩
  · rcases hrest with ⟨_, heq⟩ | ⟨_, ⟨_, heq⟩ | ⟨q, hs, heq⟩⟩
    · rw [heq]; exact ⟨h1, h2, h3⟩
    · rw [heq]
      exact ⟨h1, ordersPos_flip pk h2, ordersHaveStock_flip pk h3⟩
    · rw [heq]
      have hopos : 0 < o.quantity := h2 o (List.mem_of_find?_eq_some hf)
      have hqnn : (0 : Int) ≤ q := lookupStock_nonneg h1 hs
      refine ⟨?_, ?_, ?_⟩
      · exact stockNonneg_setStock h1 (by linarith)
      · intro r hr
        rw [setStock_orders] at hr
        exact ordersPos_flip pk h2 r hr
      · intro r hr
        rw [setStock_orders] at hr
        rw [lookupStock_setStock_isSome]
        exact ordersHaveStock_flip pk h3 r hr

/-- `adjustStock` preserves the state invariant. -/
theorem coreInv_adjust (st : DBState) (pid newQty : Nat) (now : LocalDT)
    (h : CoreInv st) : CoreInv ((adjustStock st pid newQty now).2) := by
  obtain ⟨h1, h2, h3⟩ := h
  rcases adjustStock_spec st pid newQty now with ⟨heq, _⟩ |
    ⟨_, ⟨_, heq⟩ | ⟨_, heq⟩⟩
  · rw [heq]; exact ⟨h1, h2, h3⟩
  · rw [heq]
    refine ⟨stockNonneg_setStock h1 (Int.natCast_nonneg newQty), ?_, ?_⟩
    · intro r hr
      rw [setStock_orders] at hr
      exact h2 r hr
    · intro r hr
      rw [setStock_orders] at hr
      rw [lookupStock_setStock_isSome]
      exact h3 r hr
  · rw [heq]; exact ⟨h1, h2, h3⟩

/-- Every single request preserves the state invariant. -/
theorem coreInv_applyOp (st : DBState) (op : Op) (h : CoreInv st) :
    CoreInv (applyOp st op) := by
  cases op with
  | place u r n => exact coreInv_place st u r n h
  | cancel u pk => exact coreInv_cancel st u pk h
  | adjust pid q n => exact coreInv_adjust st pid q n h

/-- Every sequence of requests preserves the state invariant. -/
theorem coreInv_runOps (st : DBState) (ops : List Op) (h : CoreInv st) :
    CoreInv (runOps st ops) := by
  induction ops generalizing st with
  | nil => exact h
  | cons op rest ih => exact ih (applyOp st op) (coreInv_applyOp st op h)

/-- C1: over every sequence of placements, cancellations and stock
adjustments from a state satisfying the invariant, every stock quantity
stays non-negative; and a placement whose requested quantity exceeds the
available stock fails with `InsufficientStock` carrying the currently
available quantity and leaves the state untouched. -/
theorem C1_stock_never_negative :
    (∀ (st : DBState) (ops : List Op), CoreInv st →
      ∀ pq ∈ (runOps st ops).stock, 0 ≤ pq.2) ∧
    (∀ (st : DBState) (u : Nat) (req : PlaceRequest) (now : LocalDT)
        (p : Product) (qty avail : Int),
      (pyStrip req.productName).data.isEmpty = false →
      resolveProduct st.products (pyStrip req.productName) = .found p →
      req.quantity = some qty → 0 < qty →
      SLOT_CHOICES.contains (pyUpper (pyStrip req.slot)) = true →
      (pyStrip req.address).data.isEmpty = false →
      (pyStrip req.address).data.any Char.isAlpha = true →
      (pyStrip req.address).data.all addressCharOk = true →
      lookupStock st p.id = some avail →
      avail < qty →
      placeOrder st u req now = (.insufficientStock p.name avail, st)) := by
  constructor
  · intro st ops h
    exact (coreInv_runOps st ops h).1
  · intro st u req now p qty avail h0 hres hq hqpos hslot ha1 ha2 ha3 hstock hlt
    have hq0 : ¬ qty ≤ 0 := not_le.mpr hqpos
    have hslot' : pyUpper (pyStrip req.slot) ∈ SLOT_CHOICES := by
      simpa using hslot
    simp [placeOrder, h0, hres, hq, hq0, hslot', ha1, ha2, ha3, hstock, hlt]

theorem C1_witness :
    (∀ pq ∈ (runOps exState
        [.place 7 ⟨"Apple", some 2, "morning", "12 Street"⟩ ⟨100, 3600⟩,
         .cancel 7 1,
         .adjust 1 50 ⟨100, 9 * 3600⟩]).stock, 0 ≤ pq.2) ∧
    placeOrder exState 7 ⟨"Apple", some 11, "MORNING", "12 Street"⟩ ⟨100, 3600⟩
      = (.insufficientStock "Apple" 10, exState) :=
  ⟨C1_stock_never_negative.1 exState _
     (by unfold CoreInv StockNonneg OrdersPos OrdersHaveStock; decide),
   C1_stock_never_negative.2 exState 7 ⟨"Apple", some 11, "MORNING", "12 Street"⟩
     ⟨100, 3600⟩ ⟨1, "Apple"⟩ 11 10 (by decide) (by decide) (by decide)
     (by decide) (by decide) (by decide) (by decide) (by decide) (by decide)
     (by decide)⟩

/-- C2: neither `placeOrder` nor `cancelOrder` partially applies its
mutation: on every non-created placement result the state is exactly the
pre-call state, and a created result appends exactly the returned order
while decrementing its product's stock by its quantity; a cancellation
that does not return `Ok` leaves the state unchanged (given that every
order's product has a stock row), and an `Ok` cancellation flips exactly
the order's flag and increments its product's stock by its quantity. -/
theorem C2_atomic_mutations :
    (∀ (st : DBState) (u : Nat) (req : PlaceRequest) (now : LocalDT),
      ((∀ o, (placeOrder st u req now).1 ≠ .created o) →
        (placeOrder st u req now).2 = st) ∧
      (∀ o, (placeOrder st u req now).1 = .created o →
        (placeOrder st u req now).2.orders = st.orders ++ [o] ∧
        ∃ avail, lookupStock st o.productId = some avail ∧
          lookupStock (placeOrder st u req now).2 o.productId
            = some (avail - o.quantity))) ∧
    (∀ (st : DBState) (u pk : Nat), OrdersHaveStock st →
      ((cancelOrder st u pk).1 ≠ .ok → (cancelOrder st u pk).2 = st) ∧
      ((cancelOrder st u pk).1 = .ok →
        ∃ o q,
          st.orders.find? (fun r => r.id == pk && r.userId == u) = some o ∧
          o.isCancelled = false ∧ lookupStock st o.productId = some q ∧
          (cancelOrder st u pk).2.orders = st.orders.map
            (fun r => if r.id == pk then { r with isCancelled := true } else r) ∧
          lookupStock (cancelOrder st u pk).2 o.productId
            = some (q + o.quantity))) := by
  constructor
  · intro st u req now
    rcases placeOrder_spec st u req now with ⟨heq, hne⟩ |
      ⟨p, qty, avail, _, _, _, hstock, _, hpair⟩
    · exact ⟨fun _ => heq, fun o ho => absurd ho (hne o)⟩
    · constructor
      · intro hne
        exact absurd (by rw [hpair]) (hne _)
      · intro o ho
        rw [hpair] at ho
        simp only at ho
        rcases PlaceResult.created.inj ho with rfl
        refine ⟨by rw [hpair, setStock_orders], avail, hstock, ?_⟩
        rw [hpair]
        exact lookupStock_setStock_self _ _ _
          (by exact (by simp [hstock] : (lookupStock st p.id).isSome = true))
  · intro st u pk hstocks
    rcases cancelOrder_spec st u pk with ⟨heq, _⟩ | ⟨o, hf, hrest⟩
    · rw [heq]
      exact ⟨fun _ => rfl, fun h => nomatch h⟩
    · rcases hrest with ⟨_, heq⟩ | ⟨hact, ⟨hnone, _⟩ | ⟨q, hs, heq⟩⟩
      · rw [heq]
        exact ⟨fun _ => rfl, fun h => nomatch h⟩
      · have := hstocks o (List.mem_of_find?_eq_some hf)
        rw [hnone] at this
        simp at this
      · rw [heq]
        refine ⟨fun h => absurd rfl h, fun _ => ⟨o, q, hf, hact, hs, ?_, ?_⟩⟩
        · rw [setStock_orders]; rfl
        · exact lookupStock_setStock_self _ _ _ (by simp [lookupStock_flip, hs])

theorem C2_witness :
    (placeOrder exState 7 ⟨"Nothing", some 1, "MORNING", "12 Street"⟩
      ⟨100, 0⟩).2 = exState ∧
    (∃ o q,
      exStateWithOrder.orders.find? (fun r => r.id == 1 && r.userId == 7)
        = some o ∧
      o.isCancelled = false ∧ lookupStock exStateWithOrder o.productId = some q ∧
      (cancelOrder exStateWithOrder 7 1).2.orders = exStateWithOrder.orders.map
        (fun r => if r.id == 1 then { r with isCancelled := true } else r) ∧
      lookupStock (cancelOrder exStateWithOrder 7 1).2 o.productId
        = some (q + o.quantity)) :=
  ⟨(C2_atomic_mutations.1 exState 7 ⟨"Nothing", some 1, "MORNING", "12 Street"⟩
      ⟨100, 0⟩).1
     (by
       intro o h
       rw [show placeOrder exState 7
           ⟨"Nothing", some 1, "MORNING", "12 Street"⟩ ⟨100, 0⟩
           = (.productNotFound "Nothing", exState) from by decide] at h
       exact nomatch h),
   (C2_atomic_mutations.2 exStateWithOrder 7 1
      (by unfold OrdersHaveStock; decide)).2 (by decide)⟩

/-- C3: the computed delivery date is `now.date() + 1` strictly before the
18:00 cut-off and `now.date() + 2` at or after it; in particular 17:59:59
yields +1 and 18:00:00 yields +2.  `scheduleDeliveryDate` takes the
injected `now` as its only input. -/
theorem C3_cutoff_boundary (d t : Nat) :
    (t < cutoffSec → scheduleDeliveryDate ⟨d, t⟩ = d + 1) ∧
    (cutoffSec ≤ t → scheduleDeliveryDate ⟨d, t⟩ = d + 2) ∧
    scheduleDeliveryDate ⟨d, 17 * 3600 + 59 * 60 + 59⟩ = d + 1 ∧
    scheduleDeliveryDate ⟨d, 18 * 3600⟩ = d + 2 := by
  refine ⟨?_, ?_, ?_, ?_⟩ <;>
    · intros
      simp only [scheduleDeliveryDate, cutoffSec] at *
      split <;> omega

theorem C3_witness :
    scheduleDeliveryDate ⟨100, 64799⟩ = 101 ∧
    scheduleDeliveryDate ⟨100, 64800⟩ = 102 :=
  ⟨(C3_cutoff_boundary 100 64799).1 (by decide),
   (C3_cutoff_boundary 100 64800).2.1 (by decide)⟩

/-- C4: the first successful cancellation restores the product's stock by
exactly the order's stored quantity and marks the order cancelled, and
every later cancellation of that order returns `AlreadyCancelled` and
changes nothing. -/
theorem C4_cancel_idempotent (st : DBState) (u pk : Nat) (o : PreOrder)
    (q : Int)
    (hf : st.orders.find? (fun r => r.id == pk && r.userId == u) = some o)
    (hact : o.isCancelled = false)
    (hs : lookupStock st o.productId = some q) :
    (cancelOrder st u pk).1 = .ok ∧
    lookupStock (cancelOrder st u pk).2 o.productId = some (q + o.quantity) ∧
    (∀ r ∈ (cancelOrder st u pk).2.orders, r.id = pk → r.isCancelled = true) ∧
    cancelOrder (cancelOrder st u pk).2 u pk
      = (.alreadyCancelled, (cancelOrder st u pk).2) ∧
    (∀ (st' : DBState) (o' : PreOrder),
      st'.orders.find? (fun r => r.id == pk && r.userId == u) = some o' →
      o'.isCancelled = true →
      cancelOrder st' u pk = (.alreadyCancelled, st')) := by
  have hid : (o.id == pk) = true := by
    have h := List.find?_some hf
    simp only [Bool.and_eq_true] at h
    exact h.1
  have hcancel : cancelOrder st u pk
      = (.ok, setStock (flipCancelled st pk) o.productId (q + o.quantity)) := by
    simp [cancelOrder, hf, hact, lookupStock_flip, hs]
  have hsub : ∀ (st' : DBState) (o' : PreOrder),
      st'.orders.find? (fun r => r.id == pk && r.userId == u) = some o' →
      o'.isCancelled = true →
      cancelOrder st' u pk = (.alreadyCancelled, st') := by
    intro st' o' hf' hc'
    simp [cancelOrder, hf', hc']
  have hff : ((cancelOrder st u pk).2.orders).find?
      (fun r => r.id == pk && r.userId == u)
      = some { o with isCancelled := true } := by
    rw [hcancel, setStock_orders]
    unfold flipCancelled
    rw [find?_map_eq]
    · rw [hf, Option.map_some', if_pos hid]
    · intro a
      by_cases hc : (a.id == pk) = true
      · rw [if_pos hc]
      · rw [if_neg hc]
  refine ⟨by rw [hcancel], ?_, ?_, ?_, hsub⟩
  · rw [hcancel]
    exact lookupStock_setStock_self _ _ _
      (by exact (by simp [lookupStock_flip, hs] :
        (lookupStock (flipCancelled st pk) o.productId).isSome = true))
  · rw [hcancel, setStock_orders]
    intro r hr hrid
    unfold flipCancelled at hr
    simp only [List.mem_map] at hr
    obtain ⟨a, _, rfl⟩ := hr
    by_cases hc : (a.id == pk) = true
    · rw [if_pos hc]
    · rw [if_neg hc] at hrid ⊢
      exact absurd (by simp [hrid]) hc
  · exact hsub _ _ hff rfl

theorem C4_witness :
    (cancelOrder exStateWithOrder 7 1).1 = .ok ∧
    lookupStock (cancelOrder exStateWithOrder 7 1).2 1 = some 10 ∧
    cancelOrder (cancelOrder exStateWithOrder 7 1).2 7 1
      = (.alreadyCancelled, (cancelOrder exStateWithOrder 7 1).2) := by
  have h := C4_cancel_idempotent exStateWithOrder 7 1 exOrder 8
    (by decide) (by decide) (by decide)
  exact ⟨h.1, h.2.1, h.2.2.2.1⟩

/-- C5: product resolution is a trichotomy: a case-insensitive exact match
wins; otherwise one or more case-insensitive substring matches produce an
ambiguous result listing all candidate id/name pairs and no order is
created; otherwise the result is `NotFound`. -/
theorem C5_resolution_trichotomy (ps : List Product) (nm : String)
    (_hne : nm.data ≠ []) :
    ((∃ p ∈ ps, iexact p.name nm) →
      ∃ p, p ∈ ps ∧ iexact p.name nm = true ∧
        resolveProduct ps nm = .found p) ∧
    ((∀ p ∈ ps, ¬ iexact p.name nm) → (∃ p ∈ ps, icontains p.name nm) →
      resolveProduct ps nm = .ambiguous
        ((ps.filter (fun p => icontains p.name nm)).map
          (fun p => (p.id, p.name))) ∧
      (ps.filter (fun p => icontains p.name nm)).map (fun p => (p.id, p.name))
        ≠ [] ∧
      (∀ (st : DBState) (u : Nat) (req : PlaceRequest) (now : LocalDT),
        st.products = ps → pyStrip req.productName = nm →
        (placeOrder st u req now).2 = st ∧
        ∀ o, (placeOrder st u req now).1 ≠ .created o)) ∧
    ((∀ p ∈ ps, ¬ iexact p.name nm) → (∀ p ∈ ps, ¬ icontains p.name nm) →
      resolveProduct ps nm = .notFound) := by
  refine ⟨?_, ?_, ?_⟩
  · intro hex
    have hsome : (ps.find? (fun p => iexact p.name nm)).isSome :=
      List.find?_isSome.mpr hex
    obtain ⟨p, hp⟩ := Option.isSome_iff_exists.mp hsome
    have hpe := List.find?_some hp
    exact ⟨p, List.mem_of_find?_eq_some hp, hpe,
      by simp [resolveProduct, hp]⟩
  · intro hnoex hpart
    have hnone : ps.find? (fun p => iexact p.name nm) = none :=
      List.find?_eq_none.mpr hnoex
    have hfilter : ps.filter (fun p => icontains p.name nm) ≠ [] := by
      intro hemp
      obtain ⟨p, hp, hpc⟩ := hpart
      exact absurd hpc (List.filter_eq_nil_iff.mp hemp p hp)
    have hres : resolveProduct ps nm = .ambiguous
        ((ps.filter (fun p => icontains p.name nm)).map
          (fun p => (p.id, p.name))) := by
      simp [resolveProduct, hnone, List.isEmpty_iff, hfilter]
    refine ⟨hres, by simp [hfilter], ?_⟩
    intro st u req now hps hname
    rcases placeOrder_spec st u req now with ⟨heq, hne'⟩ |
      ⟨p, qty, avail, hres', _, _, _, _, _⟩
    · exact ⟨heq, hne'⟩
    · rw [hname, hps, hres] at hres'
      exact nomatch hres'
  · intro hnoex hnopart
    have hnone : ps.find? (fun p => iexact p.name nm) = none :=
      List.find?_eq_none.mpr hnoex
    have hfilter : ps.filter (fun p => icontains p.name nm) = [] :=
      List.filter_eq_nil_iff.mpr hnopart
    simp [resolveProduct, hnone, hfilter]

theorem C5_witness :
    resolveProduct [⟨1, "Banana"⟩, ⟨2, "Bandaid"⟩] "Ban"
      = .ambiguous [(1, "Banana"), (2, "Bandaid")] ∧
    resolveProduct [⟨1, "Banana"⟩, ⟨2, "Bandaid"⟩] "banana"
      = .found ⟨1, "Banana"⟩ ∧
    resolveProduct [⟨1, "Banana"⟩, ⟨2, "Bandaid"⟩] "Xyz" = .notFound := by
  refine ⟨?_, ?_, ?_⟩
  · have h := ((C5_resolution_trichotomy [⟨1, "Banana"⟩, ⟨2, "Bandaid"⟩] "Ban"
      (by decide)).2.1 (by decide) ⟨⟨1, "Banana"⟩, by decide, by decide⟩).1
    exact h.trans (by decide)
  · have h := (C5_resolution_trichotomy [⟨1, "Banana"⟩, ⟨2, "Bandaid"⟩] "banana"
      (by decide)).1 ⟨⟨1, "Banana"⟩, by decide, by decide⟩
    obtain ⟨p, hp, hpe, hres⟩ := h
    rw [hres]
    simp only [List.mem_cons, List.not_mem_nil, or_false] at hp
    rcases hp with rfl | rfl
    · rfl
    · exact absurd hpe (by decide)
  · exact (C5_resolution_trichotomy [⟨1, "Banana"⟩, ⟨2, "Bandaid"⟩] "Xyz"
      (by decide)).2.2 (by decide) (by decide)

/-- C6: a cancellation of an order id that either does not exist or
belongs to a different user returns `NotFound` — never `AlreadyCancelled`
and never success — with the state unchanged, so the two cases are
indistinguishable to the caller. -/
theorem C6_owner_isolation (u pk : Nat) :
    (∀ st : DBState, (∀ o ∈ st.orders, o.id = pk → o.userId ≠ u) →
      cancelOrder st u pk = (.notFound, st)) ∧
    (∀ st1 st2 : DBState,
      (∀ o ∈ st1.orders, o.id = pk → o.userId ≠ u) →
      (∀ o ∈ st2.orders, o.id = pk → o.userId ≠ u) →
      (cancelOrder st1 u pk).1 = (cancelOrder st2 u pk).1) := by
  have key : ∀ st : DBState, (∀ o ∈ st.orders, o.id = pk → o.userId ≠ u) →
      cancelOrder st u pk = (.notFound, st) := by
    intro st h
    have hf : st.orders.find? (fun o => o.id == pk && o.userId == u) = none := by
      rw [List.find?_eq_none]
      intro o ho hcon
      rw [Bool.and_eq_true, beq_iff_eq, beq_iff_eq] at hcon
      exact h o ho hcon.1 hcon.2
    simp [cancelOrder, hf]
  exact ⟨key, fun st1 st2 h1 h2 => by rw [key st1 h1, key st2 h2]⟩

theorem C6_witness :
    cancelOrder otherOwnerState 7 1 = (.notFound, otherOwnerState) ∧
    cancelOrder exState 7 1 = (.notFound, exState) ∧
    (cancelOrder otherOwnerState 7 1).1 = (cancelOrder exState 7 1).1 :=
  ⟨(C6_owner_isolation 7 1).1 otherOwnerState (by decide),
   (C6_owner_isolation 7 1).1 exState (by decide),
   (C6_owner_isolation 7 1).2 otherOwnerState exState (by decide) (by decide)⟩

/-- C7: given that the stock row exists, a replenishment succeeds exactly
when the injected time lies within 08:00-12:00 or 18:00-19:00 (both ends
inclusive, matching the source's chained comparisons); at any other time
it fails with the window error and leaves the state unchanged. -/
theorem C7_adjust_window (st : DBState) (pid newQty : Nat) (now : LocalDT)
    (hrow : (lookupStock st pid).isSome = true) :
    ((adjustStock st pid newQty now).1 = .ok ↔
      stockWindowOpen now.tsec = true) ∧
    (stockWindowOpen now.tsec = false →
      adjustStock st pid newQty now = (.outOfWindow, st)) ∧
    (stockWindowOpen now.tsec = true ↔
      (8 * 3600 ≤ now.tsec ∧ now.tsec ≤ 12 * 3600) ∨
      (18 * 3600 ≤ now.tsec ∧ now.tsec ≤ 19 * 3600)) := by
  rcases adjustStock_spec st pid newQty now with ⟨_, hnone⟩ | ⟨_, hcases⟩
  · rw [hnone] at hrow
    exact nomatch hrow
  · refine ⟨?_, ?_, ?_⟩
    · rcases hcases with ⟨hw, heq⟩ | ⟨hw, heq⟩ <;> simp [heq, hw]
    · intro hw
      rcases hcases with ⟨hw', _⟩ | ⟨_, heq⟩
      · rw [hw'] at hw; exact nomatch hw
      · exact heq
    · unfold stockWindowOpen
      simp

theorem C7_witness :
    adjustStock exState 1 50 ⟨100, 14 * 3600⟩ = (.outOfWindow, exState) ∧
    (adjustStock exState 1 50 ⟨100, 9 * 3600⟩).1 = .ok :=
  ⟨(C7_adjust_window exState 1 50 ⟨100, 14 * 3600⟩ (by decide)).2.1 (by decide),
   ((C7_adjust_window exState 1 50 ⟨100, 9 * 3600⟩ (by decide)).1).mpr
     (by decide)⟩

/-- C8: the top-products report does not behave as claimed.  On an
ordinary range with `startDate <= endDate` the view never assigns its
queryset (it is built only inside the `start_date > end_date` swap branch)
and the request crashes (`none`); on a swapped range it returns one row
per order ordered by the single order's quantity, not per-product
aggregated totals: against the spec-modelled aggregation the same state
yields one `("Apple", 5)` total where the code yields two separate rows. -/
theorem C8_report_not_aggregated :
    topProducts repState 100 101 = none ∧
    specTopProducts repState 100 101 = [("Apple", 5)] ∧
    topProducts repState 101 100
      = some [⟨2, 8, "Apple", 3, 100⟩, ⟨1, 7, "Apple", 2, 100⟩] ∧
    specTopProducts repState 101 100 = [] := by
  refine ⟨?_, ?_, ?_, ?_⟩ <;> decide

/-- C9: the stock check-and-decrement is not linearizable: in the spec's
own scenario (stock 10, two concurrent placements of 6 and 6) the
interleaving read1-read2-write1-write2 lets both requests pass the stock
check and both succeed, leaving stock 4 after selling 12 — the claim's
"exactly one succeeds" fails.  Sequentially the code does behave as
claimed: the same two placements one after the other yield one created
order and one `InsufficientStock` with 4 available. -/
theorem C9_race_oversell :
    (runRace ⟨10, ⟨6, none, none⟩, ⟨6, none, none⟩⟩
        [false, true, false, true]).thread1.result = some true ∧
    (runRace ⟨10, ⟨6, none, none⟩, ⟨6, none, none⟩⟩
        [false, true, false, true]).thread2.result = some true ∧
    (runRace ⟨10, ⟨6, none, none⟩, ⟨6, none, none⟩⟩
        [false, true, false, true]).stockQ = 4 ∧
    (placeOrder exState 7 ⟨"Apple", some 6, "MORNING", "12 Street"⟩
        ⟨100, 0⟩).1
      = .created ⟨1, 7, 1, "MORNING", 6, 101, "12 Street", false⟩ ∧
    (placeOrder
        (placeOrder exState 7 ⟨"Apple", some 6, "MORNING", "12 Street"⟩
          ⟨100, 0⟩).2
        8 ⟨"Apple", some 6, "MORNING", "34 Street"⟩ ⟨100, 0⟩).1
      = .insufficientStock "Apple" 4 := by
  refine ⟨?_, ?_, ?_, ?_, ?_⟩ <;> decide

/-- C10: the slot identifier is `.strip().upper()`-normalised before
validation in both the placement view and the list-by-slot view, so any
case variant of a valid slot name is accepted, and only inputs that still
fail to match after normalisation yield the invalid-slot error naming the
valid set. -/
theorem C10_slot_normalisation :
    (∀ (st : DBState) (s : String), s.data ≠ [] →
      SLOT_CHOICES.contains (pyUpper (pyStrip s)) = true →
      listOrdersBySlot st (some s) = .ok (st.orders.filter
        (fun o => o.slotName == pyUpper (pyStrip s) && !o.isCancelled))) ∧
    (∀ (st : DBState) (s : String), s.data ≠ [] →
      SLOT_CHOICES.contains (pyUpper (pyStrip s)) = false →
      listOrdersBySlot st (some s) = .invalidSlot SLOT_CHOICES) ∧
    (∀ (st : DBState) (u : Nat) (req : PlaceRequest) (now : LocalDT),
      SLOT_CHOICES.contains (pyUpper (pyStrip req.slot)) = true →
      ∀ v, (placeOrder st u req now).1 ≠ .invalidSlot v) ∧
    (∀ (st : DBState) (u : Nat) (req : PlaceRequest) (now : LocalDT)
        (p : Product) (qty : Int),
      (pyStrip req.productName).data.isEmpty = false →
      resolveProduct st.products (pyStrip req.productName) = .found p →
      req.quantity = some qty → 0 < qty →
      SLOT_CHOICES.contains (pyUpper (pyStrip req.slot)) = false →
      placeOrder st u req now = (.invalidSlot SLOT_CHOICES, st)) := by
  refine ⟨?_, ?_, ?_, ?_⟩
  · intro st s hside hslot
    have hne : s.data.isEmpty = false := by
      cases hd : s.data with
      | nil => exact absurd hd hside
      | cons c cs => rfl
    have hslot' : pyUpper (pyStrip s) ∈ SLOT_CHOICES := by simpa using hslot
    simp [listOrdersBySlot, hne, hslot']
  · intro st s hside hslot
    have hne : s.data.isEmpty = false := by
      cases hd : s.data with
      | nil => exact absurd hd hside
      | cons c cs => rfl
    have hslot' : pyUpper (pyStrip s) ∉ SLOT_CHOICES := by simpa using hslot
    simp [listOrdersBySlot, hne, hslot']
  · intro st u req now hslot v
    simp only [placeOrder]
    repeat' split
    all_goals simp_all
  · intro st u req now p qty h0 hres hq hqpos hslot
    have hq0 : ¬ qty ≤ 0 := not_le.mpr hqpos
    have hslot' : pyUpper (pyStrip req.slot) ∉ SLOT_CHOICES := by
      simpa using hslot
    simp [placeOrder, h0, hres, hq, hq0, hslot']

theorem C10_witness :
    listOrdersBySlot exStateWithOrder (some " morning ") = .ok [exOrder] ∧
    listOrdersBySlot exState (some "noon") = .invalidSlot SLOT_CHOICES ∧
    placeOrder exState 7 ⟨"Apple", some 1, "noon", "12 Street"⟩ ⟨100, 0⟩
      = (.invalidSlot SLOT_CHOICES, exState) := by
  refine ⟨?_, ?_, ?_⟩
  · have h := C10_slot_normalisation.1 exStateWithOrder " morning "
      (by decide) (by decide)
    exact h.trans (by decide)
  · exact C10_slot_normalisation.2.1 exState "noon" (by decide) (by decide)
  · exact C10_slot_normalisation.2.2.2 exState 7
      ⟨"Apple", some 1, "noon", "12 Street"⟩ ⟨100, 0⟩ ⟨1, "Apple"⟩ 1
      (by decide) (by decide) (by decide) (by decide) (by decide)
